import Mathlib

set_option maxRecDepth 8000

/-!
Verification of the pattern-detection engine of the migraine-tracker
repository.  The repository ships two variants of `patterns.js`:

* a basic variant (five rules), embedded below in namespace `Basic`;
* an extended variant (nine rules), embedded in namespace `Extended`.

Modelling conventions (shallow embedding):

* An instant is an integer number of minutes since 1970-01-01T00:00 in the
  local timezone, whose offset is fixed at zero, so local clock components
  and ISO/UTC components coincide.  `new Date(ep.datetime)` therefore
  becomes the integer itself; `setDate(getDate() - days)` becomes
  subtraction of `days * 1440` minutes; `getHours()*60 + getMinutes()`
  becomes `t.emod 1440`; the date portion of the timestamp (both
  `toISOString().slice(0, 10)` and `ep.datetime.slice(0, 10)`) becomes
  the day number `t.ediv 1440`; `getDay()` becomes `(t.ediv 1440 + 4).emod 7`
  (1970-01-01 was a Thursday).
* JavaScript numeric arithmetic is modelled exactly: intermediate
  non-integer values (averages, thresholds, percentages) are unreduced
  fractions `Frac` with integer numerator and denominator, compared by
  cross-multiplication; `Frac.toRat` maps them to `ℚ` for the statements.
  Every denominator produced by the engine is positive (window lengths are
  guarded to be nonzero before any division).
* A possibly-undefined numeric field is an `Option ℤ` and the source's raw
  arithmetic on such a field is NaN-propagating (`none` is NaN; every
  comparison with NaN is false).
* `Array.prototype.sort` with a numeric comparator is modelled by
  `List.insertionSort` with the corresponding total order: on integer keys
  the sorted result is the unique sorted permutation, so any sorting
  algorithm is a faithful model.
* The engine's implicit `const now = new Date()` closure is threaded as an
  explicit `now : ℤ` parameter, as the design document prescribes for
  testability.
-/

/-- One medication entry `{name, doseMg}`; `doseMg` is optional. -/
structure Med where
  name : String
  doseMg : Option ℤ
deriving DecidableEq, Repr

/-- An episode record.  `intensity`, `triggers` and `medications` are
optional in stored data, hence `Option`; `datetime` is required.
The declared schema makes `intensity` an integer (domain 0–10). -/
structure Episode where
  id : String
  datetime : ℤ
  intensity : Option ℤ
  durationMinutes : ℤ
  triggers : Option (List String)
  medications : Option (List Med)
  notes : String
deriving DecidableEq, Repr

/-- An emitted `{title, message}` suggestion. -/
structure Finding where
  title : String
  message : String
deriving DecidableEq, Repr

/-- An exact, unreduced fraction of integers: the value of a JavaScript
numeric expression.  All fractions the engine builds have positive
denominators. -/
structure Frac where
  num : ℤ
  den : ℤ
deriving DecidableEq, Repr

/-- The rational value of a fraction. -/
def Frac.toRat (a : Frac) : ℚ := (a.num : ℚ) / (a.den : ℚ)

/-- An integer-valued JavaScript number. -/
def Frac.ofInt (n : ℤ) : Frac := ⟨n, 1⟩

/-- Exact product of two JavaScript numbers. -/
def Frac.mul (a b : Frac) : Frac := ⟨a.num * b.num, a.den * b.den⟩

/-- Exact sum of two JavaScript numbers. -/
def Frac.add (a b : Frac) : Frac := ⟨a.num * b.den + b.num * a.den, a.den * b.den⟩

/-- Exact quotient of two JavaScript numbers (used only with positive
numerator and denominator of `b`). -/
def Frac.div (a b : Frac) : Frac := ⟨a.num * b.den, a.den * b.num⟩

/-- `a <= b`, by cross-multiplication (valid for positive denominators). -/
def Frac.leB (a b : Frac) : Bool := decide (a.num * b.den ≤ b.num * a.den)

/-- `a < b`, by cross-multiplication (valid for positive denominators). -/
def Frac.ltB (a b : Frac) : Bool := decide (a.num * b.den < b.num * a.den)

/-- `Math.ceil` of a fraction with positive denominator. -/
def Frac.ceil (a : Frac) : ℤ := -((-a.num).ediv a.den)

/-- `Math.round` of a fraction with positive denominator (half rounds
toward positive infinity): `⌊a + 1/2⌋`. -/
def Frac.round (a : Frac) : ℤ := (2 * a.num + a.den).ediv (2 * a.den)

/-- `n.toFixed(1)` of a fraction with positive denominator, for the
nonnegative averages the engine feeds to it: one decimal digit, rounding
half up, i.e. the digits of `⌊10a + 1/2⌋`. -/
def Frac.toFixed1 (a : Frac) : String :=
  let n : ℤ := (20 * a.num + a.den).ediv (2 * a.den)
  toString (n.ediv 10) ++ "." ++ toString (n.emod 10)

/-- NaN-propagating addition on possibly-undefined integer fields:
`undefined + x` is NaN in JavaScript. -/
def jsAdd : Option ℤ → Option ℤ → Option ℤ
  | some a, some b => some (a + b)
  | _, _ => none

/-- `arr.reduce((sum, ep) => sum + ep.intensity, 0)` over possibly-NaN
values. -/
def jsSum (l : List (Option ℤ)) : Option ℤ := l.foldl jsAdd (some 0)

/-- `a >= b` on possibly-NaN values: any comparison with NaN is false. -/
def jsGe : Option Frac → Option Frac → Bool
  | some a, some b => Frac.leB b a
  | _, _ => false

/-- `toFixed(1)` lifted to possibly-NaN values (`NaN.toFixed(1)` prints
`"NaN"`; unreachable in the engine because the comparison guarding the
message is false on NaN). -/
def jsToFixed1 : Option Frac → String
  | some a => a.toFixed1
  | none => "NaN"

/-- `n.toString().padStart(2, '0')` for the nonnegative numbers fed to it. -/
def pad2 (n : ℤ) : String :=
  if n < 10 then "0" ++ toString n else toString n

/-- `str.charAt(0).toUpperCase() + str.slice(1)` — capitalises the first
character (identity on the empty string, as in both variants). -/
def capitalize (s : String) : String :=
  match s.data with
  | [] => ""
  | c :: cs => String.mk (c.toUpper :: cs)

/-- `str.toLowerCase()` (character-wise lowering). -/
def toLowerStr (s : String) : String := String.mk (s.data.map Char.toLower)

/-- `str.trim()` (strip leading and trailing whitespace). -/
def trimStr (s : String) : String :=
  String.mk (((s.data.dropWhile Char.isWhitespace).reverse.dropWhile
    Char.isWhitespace).reverse)

/-- Trim-and-lowercase normalisation applied to trigger labels by the
basic variant: `t.trim().toLowerCase()`. -/
def normLabel (t : String) : String := toLowerStr (trimStr t)

/-- Minutes-since-local-midnight of an instant
(`getHours()*60 + getMinutes()`). -/
def minutesOfDay (t : ℤ) : ℤ := t.emod 1440

/-- Local calendar-day number of an instant (the date portion of the
timestamp). -/
def dayNumber (t : ℤ) : ℤ := t.ediv 1440

/-- JavaScript `getDay()`: weekday with Sunday = 0 (1970-01-01 was a
Thursday). -/
def getDay (t : ℤ) : ℤ := (dayNumber t + 4).emod 7

/-- JavaScript `getHours()`. -/
def getHours (t : ℤ) : ℤ := (minutesOfDay t).ediv 60

/-- Gregorian calendar: day number (from 1970-01-01) → (year, month, day)
(standard civil-calendar conversion). -/
def civilFromDays (z0 : ℤ) : ℤ × ℤ × ℤ :=
  let z := z0 + 719468
  let era := z.ediv 146097
  let doe := z - era * 146097
  let yoe := (doe - doe.ediv 1460 + doe.ediv 36524 - doe.ediv 146096).ediv 365
  let y := yoe + era * 400
  let doy := doe - (365 * yoe + yoe.ediv 4 - yoe.ediv 100)
  let mp := (5 * doy + 2).ediv 153
  let d := doy - (153 * mp + 2).ediv 5 + 1
  let m := mp + (if mp < 10 then 3 else -9)
  (y + (if m ≤ 2 then 1 else 0), m, d)

/-- Gregorian calendar: (year, month, day) → day number from 1970-01-01. -/
def daysFromCivil (y0 m d : ℤ) : ℤ :=
  let y := y0 - (if m ≤ 2 then 1 else 0)
  let era := y.ediv 400
  let yoe := y - era * 400
  let doy := (153 * (m + (if 2 < m then -3 else 9)) + 2).ediv 5 + d - 1
  let doe := yoe * 365 + yoe.ediv 4 - yoe.ediv 100 + doy
  era * 146097 + doe - 719468

/-- `getFullYear()` of an instant. -/
def getFullYear (t : ℤ) : ℤ := (civilFromDays (dayNumber t)).1

/-- The window helper shared verbatim by both variants:
`episodes.filter(ep => new Date(ep.datetime) >= cutoff)` with
`cutoff = now - days` (calendar subtraction, i.e. `days * 1440` minutes). -/
def inLastDays (episodes : List Episode) (now days : ℤ) : List Episode :=
  episodes.filter (fun ep => now - days * 1440 ≤ ep.datetime)

/-- The weekday-name table used by both variants. -/
def weekdays : List String :=
  ["Sunday", "Monday", "Tuesday", "Wednesday", "Thursday", "Friday",
   "Saturday"]

/-- JavaScript object used as a counter (`obj[key] = (obj[key] || 0) + 1`):
an association list in key-insertion order; a fresh key is appended, an
existing key's count is incremented in place. -/
def bumpCount (counts : List (String × ℕ)) (k : String) : List (String × ℕ) :=
  if counts.any (fun p => p.1 == k) then
    counts.map (fun p => if p.1 == k then (p.1, p.2 + 1) else p)
  else counts ++ [(k, 1)]

/-- A JavaScript `Set` (used only for its size): the list of first
occurrences, in insertion order. -/
def firstDedup {α : Type} [DecidableEq α] (l : List α) : List α :=
  l.foldl (fun acc a => if a ∈ acc then acc else acc ++ [a]) []

/-- JavaScript `getMinutes()`. -/
def getMinutes (t : ℤ) : ℤ := (minutesOfDay t).emod 60

/-- The inner `while (minutes[i] - minutes[windowStartIdx] > 240)
windowStartIdx++` loop of the 4-hour sliding window; the fuel argument is
`minutes.length`, an upper bound on the number of iterations (the loop
stops at `j = i` at the latest). -/
def shrinkWhile (ms : List ℤ) (mi : ℤ) : ℕ → ℕ → ℕ
  | 0, j => j
  | fuel + 1, j =>
    if 240 < mi - ms.getD j 0 then shrinkWhile ms mi fuel (j + 1) else j

/-- The two-pointer sweep over the sorted minute values: for each right
endpoint `i` shrink the left pointer, then update `(maxCount,
windowStartTime)` when the current window is strictly larger.  The fold
state is `(windowStartIdx, maxCount, windowStartTime)`, initially
`(0, 0, 0)` as in the source. -/
def sweep (ms : List ℤ) : ℕ × ℤ :=
  let s := (List.range ms.length).foldl
    (fun (s : ℕ × ℕ × ℤ) i =>
      let j := shrinkWhile ms (ms.getD i 0) ms.length s.1
      let count := i - j + 1
      if s.2.1 < count then (j, count, ms.getD j 0) else (j, s.2.1, s.2.2))
    (0, 0, 0)
  (s.2.1, s.2.2)

/-- `formatTime` of the basic variant: `hh:mm` with zero padding. -/
def formatTime (minutes : ℤ) : String :=
  pad2 (minutes.ediv 60) ++ ":" ++ pad2 (minutes.emod 60)

/-- The sorted minutes-since-midnight values of the last-30-day window,
common to both variants' time-of-day rules
(`recent.map(... getHours()*60 + getMinutes() ...).sort((a, b) => a - b)`). -/
def sortedMinutesOf (episodes : List Episode) (now : ℤ) : List ℤ :=
  List.insertionSort (· ≤ ·)
    ((inLastDays episodes now 30).map
      (fun ep => getHours ep.datetime * 60 + getMinutes ep.datetime))

/-- Episode constructor for concrete instances. -/
def mkEp (t : ℤ) (i : Option ℤ) (tr : Option (List String))
    (md : Option (List Med)) : Episode :=
  ⟨"", t, i, 60, tr, md, ""⟩

/-! ## The basic variant of `patterns.js` (five rules) -/

namespace Basic

/-- Trigger counter of the basic variant's `topTriggersRule`: keys are
trimmed and lowercased labels. -/
def triggerCounts (recent : List Episode) : List (String × ℕ) :=
  recent.foldl
    (fun acc ep => (ep.triggers.getD []).foldl
      (fun acc2 t => bumpCount acc2 (normLabel t)) acc)
    []

/-- Basic `topTriggersRule`: any normalised trigger label reported in at
least `ceil(0.25 · window)` of the last-30-day episodes. -/
def topTriggersRule (episodes : List Episode) (now : ℤ) : Option Finding :=
  let recent := inLastDays episodes now 30
  if recent.isEmpty then none else
  let counts := triggerCounts recent
  let threshold : ℤ := Frac.ceil ⟨(recent.length : ℤ) * 25, 100⟩
  let commonTriggers := (counts.filter
    (fun p => threshold ≤ (p.2 : ℤ))).map (fun p => p.1)
  if commonTriggers.isEmpty then none else
  some ⟨"Frequent triggers",
    "You often report triggers like " ++
      String.intercalate ", " (commonTriggers.map capitalize) ++
      ". Consider what adjustments might help you avoid or mitigate these."⟩

/-- Basic `timeOfDayRule`: at least `ceil(0.4 · total)` episodes inside
some 240-minute window of the sorted minutes-since-midnight values. -/
def timeOfDayRule (episodes : List Episode) (now : ℤ) : Option Finding :=
  let recent := inLastDays episodes now 30
  if recent.isEmpty then none else
  let minutes := sortedMinutesOf episodes now
  let total := minutes.length
  let threshold : ℤ := Frac.ceil ⟨(total : ℤ) * 4, 10⟩
  let r := sweep minutes
  if threshold ≤ (r.1 : ℤ) then
    let start := r.2
    let endT := (start + 240).emod 1440
    some ⟨"Time‑of‑day pattern",
      "Around " ++ (toString (Frac.round ⟨(r.1 : ℤ) * 100, (total : ℤ)⟩) ++ "%") ++
      " of your episodes happen between " ++ formatTime start ++ " and " ++
      formatTime endT ++
      ". You might try adjusting your routine or preparing for triggers during this period."⟩
  else none

/-- Basic `dayOfWeekRule`. -/
def dayOfWeekRule (episodes : List Episode) (now : ℤ) : Option Finding :=
  let recent := inLastDays episodes now 30
  if recent.isEmpty then none else
  let counts := (List.range 7).map
    (fun d => recent.countP (fun ep => getDay ep.datetime == (d : ℤ)))
  let total := recent.length
  let threshold : ℤ := Frac.ceil ⟨(total : ℤ) * 4, 10⟩
  let maxCount := counts.foldl Nat.max 0
  if threshold ≤ (maxCount : ℤ) then
    let dayIndex := counts.findIdx (fun c => c == maxCount)
    some ⟨"Day‑of‑week trend",
      "About " ++ toString (Frac.round ⟨(maxCount : ℤ) * 100, (total : ℤ)⟩) ++
      "% of recent episodes occur on " ++ weekdays.getD dayIndex "" ++
      "s. There may be something about those days worth investigating."⟩
  else none

/-- The 42-day window of the basic `risingIntensityRule`
(`new Date(ep.datetime) >= now - 42 days`). -/
def risingRecent (episodes : List Episode) (now : ℤ) : List Episode :=
  episodes.filter (fun ep => now - 42 * 1440 ≤ ep.datetime)

/-- Older half: `datetime < now - 21 days`. -/
def risingFirstWindow (episodes : List Episode) (now : ℤ) : List Episode :=
  (risingRecent episodes now).filter (fun ep => ep.datetime < now - 21 * 1440)

/-- Newer half: `datetime >= now - 21 days`. -/
def risingSecondWindow (episodes : List Episode) (now : ℤ) : List Episode :=
  (risingRecent episodes now).filter (fun ep => now - 21 * 1440 ≤ ep.datetime)

/-- Mean intensity of the older half; raw `ep.intensity` is summed, so an
absent intensity makes the whole average NaN (`none`). -/
def risingAvg1 (episodes : List Episode) (now : ℤ) : Option Frac :=
  (jsSum ((risingFirstWindow episodes now).map (fun ep => ep.intensity))).map
    (fun s => ⟨s, ((risingFirstWindow episodes now).length : ℤ)⟩)

/-- Mean intensity of the newer half (same NaN behaviour). -/
def risingAvg2 (episodes : List Episode) (now : ℤ) : Option Frac :=
  (jsSum ((risingSecondWindow episodes now).map (fun ep => ep.intensity))).map
    (fun s => ⟨s, ((risingSecondWindow episodes now).length : ℤ)⟩)

/-- The message template of the basic rising-intensity finding; the two
holes are the `toFixed(1)` renderings of the newer and older averages. -/
def risingMessage (avg2Str avg1Str : String) : String :=
  "Your average migraine intensity over the last three weeks (" ++ avg2Str ++
  ") is noticeably higher than the preceding three weeks (" ++ avg1Str ++
  "). It may be worth discussing this with a healthcare professional."

/-- Basic `risingIntensityRule`: midpoint split of the last 42 days;
fires when `avg2 >= avg1 * 1.2` (NaN comparisons are false). -/
def risingIntensityRule (episodes : List Episode) (now : ℤ) : Option Finding :=
  let recent := risingRecent episodes now
  if recent.length < 2 then none else
  if (risingFirstWindow episodes now).isEmpty ||
     (risingSecondWindow episodes now).isEmpty then none else
  let avg1 := risingAvg1 episodes now
  let avg2 := risingAvg2 episodes now
  if jsGe avg2 (avg1.map (fun a => a.mul ⟨12, 10⟩)) then
    some ⟨"Rising intensity", risingMessage (jsToFixed1 avg2) (jsToFixed1 avg1)⟩
  else none

/-- The set of distinct calendar days carrying at least one medication
entry (a JavaScript `Set`, only its size is used). -/
def medDayList (recent : List Episode) : List ℤ :=
  firstDedup (recent.filterMap (fun ep =>
    if (ep.medications.getD []).isEmpty then none
    else some (dayNumber ep.datetime)))

/-- Basic `medicationOveruseRule`: medication taken on at least 10
distinct days of the last 30. -/
def medicationOveruseRule (episodes : List Episode) (now : ℤ) : Option Finding :=
  let recent := inLastDays episodes now 30
  let daysWithMeds := medDayList recent
  if 10 ≤ daysWithMeds.length then
    some ⟨"Medication use",
      "You've taken migraine medication on " ++ toString daysWithMeds.length ++
      " days in the last month. Overuse can sometimes worsen migraines – consider discussing your medication plan with a doctor."⟩
  else none

/-- Basic `analysePatterns`: the five rules in source order. -/
def analysePatterns (episodes : List Episode) (now : ℤ) : List Finding :=
  if episodes.isEmpty then [] else
  [topTriggersRule episodes now, timeOfDayRule episodes now,
   dayOfWeekRule episodes now, risingIntensityRule episodes now,
   medicationOveruseRule episodes now].reduceOption

end Basic

/-! ## The extended variant of `patterns.js` (nine rules) -/

namespace Extended

/-- Trigger counter of the extended variant's `topTriggersRule`: keys are
the raw labels (`triggerCounts[t] = (triggerCounts[t] || 0) + 1`, no
trimming or lowercasing). -/
def triggerCounts (recent : List Episode) : List (String × ℕ) :=
  recent.foldl
    (fun acc ep => (ep.triggers.getD []).foldl
      (fun acc2 t => bumpCount acc2 t) acc)
    []

/-- Extended `topTriggersRule`. -/
def topTriggersRule (episodes : List Episode) (now : ℤ) : Option Finding :=
  let recent := inLastDays episodes now 30
  if recent.isEmpty then none else
  let counts := triggerCounts recent
  let threshold : ℤ := Frac.ceil ⟨(recent.length : ℤ) * 25, 100⟩
  let common := (counts.filter
    (fun p => threshold ≤ (p.2 : ℤ))).map (fun p => p.1)
  if common.isEmpty then none else
  some ⟨"Frequent triggers",
    "You often report triggers like " ++
      String.intercalate ", " (common.map capitalize) ++
      ". Gentle adjustments might help you avoid or mitigate these."⟩

/-- Extended `timeOfDayRule`: same sweep as the basic variant, but the
reported range is `floor(start/60):00–floor((start+240)/60):00` with no
modulo on the end hour, and no percentage is reported. -/
def timeOfDayRule (episodes : List Episode) (now : ℤ) : Option Finding :=
  let recent := inLastDays episodes now 30
  if recent.isEmpty then none else
  let minutes := sortedMinutesOf episodes now
  let total := minutes.length
  let threshold : ℤ := Frac.ceil ⟨(total : ℤ) * 4, 10⟩
  let r := sweep minutes
  if threshold ≤ (r.1 : ℤ) then
    let startHour := r.2.ediv 60
    let endHour := (r.2 + 240).ediv 60
    some ⟨"Time‑of‑day cluster",
      "A significant share of your episodes occur between " ++
      (pad2 startHour ++ ":00–" ++ pad2 endHour ++ ":00") ++
      ". Consider a pre‑emptive routine or relaxation practice then."⟩
  else none

/-- The `weekdayCounts` object of the extended `dayOfWeekRule`: keyed by
weekday 0–6; a JavaScript object with integer-like keys is iterated in
ascending key order, and a key is present exactly when its count is
nonzero. -/
def weekdayEntries (recent : List Episode) : List (ℤ × ℕ) :=
  (List.range 7).filterMap (fun d =>
    let c := recent.countP (fun ep => getDay ep.datetime == (d : ℤ))
    if c = 0 then none else some ((d : ℤ), c))

/-- Extended `dayOfWeekRule`: maximum entry via
`reduce((max, entry) => entry[1] > max[1] ? entry : max, [null, 0])`. -/
def dayOfWeekRule (episodes : List Episode) (now : ℤ) : Option Finding :=
  let recent := inLastDays episodes now 30
  if recent.isEmpty then none else
  let total := recent.length
  let threshold : ℤ := Frac.ceil ⟨(total : ℤ) * 4, 10⟩
  let maxEntry := (weekdayEntries recent).foldl
    (fun (mx : Option ℤ × ℕ) e => if mx.2 < e.2 then (some e.1, e.2) else mx)
    (none, 0)
  if threshold ≤ (maxEntry.2 : ℤ) then
    some ⟨"Day‑of‑week cluster",
      "About " ++ toString (Frac.round ⟨(maxEntry.2 : ℤ) * 100, (total : ℤ)⟩) ++
      "% of your episodes happen on " ++
      (match maxEntry.1 with
       | some d => weekdays.getD d.toNat ""
       | none => "undefined") ++
      ". Reflect on factors specific to that day."⟩
  else none

/-- The week bucket of the extended `risingIntensityRule`: week number
within the year of a Monday-first week, computed from the day of the year
and the weekday offset. -/
def weekKey (t : ℤ) : ℤ :=
  let first := daysFromCivil (getFullYear t) 1 1
  let dayOffset := (getDay t + 6).emod 7
  let dayOfYear := dayNumber t - first + 1
  Frac.ceil ⟨dayOfYear - dayOffset, 7⟩

/-- The sorted distinct week numbers of the window
(`Object.keys(weekGroups).map(Number).sort((a, b) => a - b)`). -/
def weekNumbersOf (recent : List Episode) : List ℤ :=
  List.insertionSort (· ≤ ·)
    (firstDedup (recent.map (fun ep => weekKey ep.datetime)))

/-- Mean intensity per week bucket, in ascending week order; an absent
intensity counts as 0 (`Number(ep.intensity || 0)`). -/
def weeklyAvgOf (recent : List Episode) : List Frac :=
  (weekNumbersOf recent).map (fun wn =>
    let eps := recent.filter (fun ep => weekKey ep.datetime == wn)
    ⟨eps.foldl (fun sum ep => sum + ep.intensity.getD 0) 0, (eps.length : ℤ)⟩)

/-- Extended `risingIntensityRule`: requires ≥ 3 episodes in the 42-day
window and ≥ 6 distinct week buckets; compares the mean of the last three
weekly means against 1.2 times the mean of the preceding three, with a
strict positivity gate on the latter.  The message reports no numbers. -/
def risingIntensityRule (episodes : List Episode) (now : ℤ) : Option Finding :=
  let sixWeeks := inLastDays episodes now 42
  if sixWeeks.length < 3 then none else
  let weeklyAvg := weeklyAvgOf sixWeeks
  if weeklyAvg.length < 6 then none else
  let len := weeklyAvg.length
  let last3 := ((weeklyAvg.drop (len - 3)).foldl Frac.add
    (Frac.ofInt 0)).div (Frac.ofInt 3)
  let prev3 := (((weeklyAvg.drop (len - 6)).take 3).foldl Frac.add
    (Frac.ofInt 0)).div (Frac.ofInt 3)
  if Frac.ltB (Frac.ofInt 0) prev3 && Frac.leB (prev3.mul ⟨12, 10⟩) last3 then
    some ⟨"Rising intensity trend",
      "Your 3‑week average intensity has risen by over 20%. Consider consulting a healthcare provider or reviewing possible triggers."⟩
  else none

/-- The set of distinct calendar days carrying at least one medication
entry (`(ep.medications || []).length > 0`, day via
`ep.datetime.slice(0, 10)`). -/
def medDayList (recent : List Episode) : List ℤ :=
  firstDedup (recent.filterMap (fun ep =>
    if (ep.medications.getD []).isEmpty then none
    else some (dayNumber ep.datetime)))

/-- Extended `medicationOveruseRule`. -/
def medicationOveruseRule (episodes : List Episode) (now : ℤ) : Option Finding :=
  let recent := inLastDays episodes now 30
  let daysWithMed := medDayList recent
  if 10 ≤ daysWithMed.length then
    some ⟨"Medication usage",
      "You've used medication on " ++ toString daysWithMed.length ++
      " days in the last month. Over‑use can sometimes worsen migraines; speak with your doctor."⟩
  else none

/-- The `hourBuckets` object of `averageIntensityByHourRule`: keyed by
hour 0–23 (ascending iteration order), present iff nonempty; each entry is
`(hour, intensity sum, count)` with `Number(ep.intensity || 0)`. -/
def hourEntries (recent : List Episode) : List (ℤ × ℤ × ℕ) :=
  (List.range 24).filterMap (fun h =>
    let l := recent.filter (fun ep => getHours ep.datetime == (h : ℤ))
    if l.isEmpty then none
    else some ((h : ℤ), l.foldl (fun s ep => s + ep.intensity.getD 0) 0,
      l.length))

/-- Extended `averageIntensityByHourRule`: the hour with the highest mean
intensity, gated on mean ≥ 6 and at least 3 samples. -/
def averageIntensityByHourRule (episodes : List Episode) (now : ℤ) :
    Option Finding :=
  let recent := inLastDays episodes now 30
  if recent.isEmpty then none else
  let averages := (hourEntries recent).map
    (fun e => (e.1, (⟨e.2.1, (e.2.2 : ℤ)⟩ : Frac), e.2.2))
  match averages with
  | [] => none
  | a0 :: _ =>
    let top := averages.foldl
      (fun mx e => if Frac.ltB mx.2.1 e.2.1 then e else mx) a0
    if Frac.leB (Frac.ofInt 6) top.2.1 && 3 ≤ top.2.2 then
      some ⟨"Peak intensity hour",
        "Episodes logged around " ++ pad2 top.1 ++
        ":00 tend to be more intense. Planning rest or adjustments then might help."⟩
    else none

/-- Weekday buckets of `averageIntensityByWeekdayRule`. -/
def weekdayAvgEntries (recent : List Episode) : List (ℤ × ℤ × ℕ) :=
  (List.range 7).filterMap (fun d =>
    let l := recent.filter (fun ep => getDay ep.datetime == (d : ℤ))
    if l.isEmpty then none
    else some ((d : ℤ), l.foldl (fun s ep => s + ep.intensity.getD 0) 0,
      l.length))

/-- Extended `averageIntensityByWeekdayRule`. -/
def averageIntensityByWeekdayRule (episodes : List Episode) (now : ℤ) :
    Option Finding :=
  let recent := inLastDays episodes now 30
  if recent.isEmpty then none else
  let avgs := (weekdayAvgEntries recent).map
    (fun e => (e.1, (⟨e.2.1, (e.2.2 : ℤ)⟩ : Frac), e.2.2))
  match avgs with
  | [] => none
  | a0 :: _ =>
    let top := avgs.foldl
      (fun mx e => if Frac.ltB mx.2.1 e.2.1 then e else mx) a0
    if Frac.leB (Frac.ofInt 6) top.2.1 && 3 ≤ top.2.2 then
      some ⟨"Toughest day",
        "Your migraines tend to be most intense on " ++
        weekdays.getD top.1.toNat "" ++
        ". Consider easing your schedule on those days."⟩
    else none

/-- The `while`-style walk of `computeStreak`: starting from the most
recent day, extend the streak while consecutive distinct days differ by
exactly one calendar day. -/
def streakWalk : List ℤ → ℕ
  | [] => 0
  | [_] => 1
  | d1 :: d2 :: rest => if d1 - d2 = 1 then 1 + streakWalk (d2 :: rest) else 1

/-- `computeStreak`: distinct calendar days of the episodes, sorted
descending, walked from the most recent day. -/
def computeStreak (eps : List Episode) : ℕ :=
  if eps.isEmpty then 0 else
  streakWalk (List.insertionSort (fun a b => b ≤ a)
    (firstDedup (eps.map (fun ep => dayNumber ep.datetime))))

/-- The finding emitted by `streakRule` for a given streak length:
fires at streak ≥ 3. -/
def streakFindingOf (streak : ℕ) : Option Finding :=
  if 3 ≤ streak then
    some ⟨"Consistent tracking",
      "Great job! You've logged episodes for " ++ toString streak ++
      " consecutive days. Keeping track consistently helps identify patterns."⟩
  else none

/-- Extended `streakRule`: `episodes.slice().sort(...)` (a copy is
sorted), then `computeStreak`; fires at streak ≥ 3.  The reference
instant plays no part. -/
def streakRule (episodes : List Episode) : Option Finding :=
  let sortedEpisodes := List.insertionSort
    (fun a b => b.datetime ≤ a.datetime) episodes
  streakFindingOf (computeStreak sortedEpisodes)

/-- The last-week window of `weeklyChangeRule`: `inLastDays(7)`. -/
def lastWeekOf (episodes : List Episode) (now : ℤ) : List Episode :=
  inLastDays episodes now 7

/-- The prior-week window of `weeklyChangeRule`:
`d >= now - 14 days && d < now - 7 days`. -/
def prevWeekOf (episodes : List Episode) (now : ℤ) : List Episode :=
  episodes.filter (fun ep =>
    now - 14 * 1440 ≤ ep.datetime ∧ ep.datetime < now - 7 * 1440)

/-- Extended `weeklyChangeRule`. -/
def weeklyChangeRule (episodes : List Episode) (now : ℤ) : Option Finding :=
  let lastCount := (lastWeekOf episodes now).length
  let prevCount := (prevWeekOf episodes now).length
  if 0 < prevCount ∧ prevCount < lastCount then
    some ⟨"Increased frequency",
      "You logged " ++ toString lastCount ++
      " episodes in the last week, up from " ++ toString prevCount ++
      " the week before. Watch for triggers and consider adjustments."⟩
  else if 0 < prevCount ∧ lastCount < prevCount then
    some ⟨"Decreased frequency",
      "Nice progress! You've logged fewer episodes this week (" ++
      toString lastCount ++ ") than the previous week (" ++
      toString prevCount ++ "). Keep it up!"⟩
  else none

/-- Extended `analysePatterns`: the nine rules in source order. -/
def analysePatterns (episodes : List Episode) (now : ℤ) : List Finding :=
  if episodes.isEmpty then [] else
  [topTriggersRule episodes now, timeOfDayRule episodes now,
   dayOfWeekRule episodes now, risingIntensityRule episodes now,
   medicationOveruseRule episodes now,
   averageIntensityByHourRule episodes now,
   averageIntensityByWeekdayRule episodes now,
   streakRule episodes, weeklyChangeRule episodes now].reduceOption

end Extended

/-! ## Array-identity model of the engine call

`Array.prototype.sort` mutates its receiver.  To settle the non-mutation
contract the engine call is replayed in a store of episode arrays in
which the caller's array is reference 0, `slice()` allocates a fresh
reference, and `sort` rewrites the referenced cell in place.  The only
sort applied to an array of episodes is the one in `streakRule`, whose
receiver is the array returned by `episodes.slice()`; every other rule
only reads the caller's array (their sorted number arrays are fresh
arrays produced by `map`). -/

/-- A store of episode arrays. -/
abbrev Store := List (List Episode)

/-- Read the contents of a reference. -/
def readRef (r : ℕ) : StateM Store (List Episode) :=
  fun s => (s.getD r [], s)

/-- `arr.slice()`: allocate a fresh array with the same contents and
return its reference. -/
def sliceRef (r : ℕ) : StateM Store ℕ :=
  fun s => (s.length, s ++ [s.getD r []])

/-- `arr.sort((a, b) => new Date(b.datetime) - new Date(a.datetime))`:
sorts the receiver in place. -/
def sortRefByDatetimeDesc (r : ℕ) : StateM Store Unit :=
  fun s => ((), s.set r (List.insertionSort
    (fun a b => b.datetime ≤ a.datetime) (s.getD r [])))

/-- `streakRule` with explicit array identity: the sort receiver is the
freshly sliced array. -/
def Extended.streakRuleSt (episodesRef : ℕ) : StateM Store (Option Finding) := do
  let copy ← sliceRef episodesRef
  sortRefByDatetimeDesc copy
  let sortedEpisodes ← readRef copy
  pure (Extended.streakFindingOf (Extended.computeStreak sortedEpisodes))

/-- The whole extended `analysePatterns` call with explicit array
identity: every rule but `streakRule` only reads the caller's array. -/
def Extended.analyseSt (episodesRef : ℕ) (now : ℤ) :
    StateM Store (List Finding) := do
  let episodes ← readRef episodesRef
  if episodes.isEmpty then pure [] else do
    let s1 := Extended.topTriggersRule episodes now
    let s2 := Extended.timeOfDayRule episodes now
    let s3 := Extended.dayOfWeekRule episodes now
    let s4 := Extended.risingIntensityRule episodes now
    let s5 := Extended.medicationOveruseRule episodes now
    let s6 := Extended.averageIntensityByHourRule episodes now
    let s7 := Extended.averageIntensityByWeekdayRule episodes now
    let s8 ← Extended.streakRuleSt episodesRef
    let s9 := Extended.weeklyChangeRule episodes now
    pure ([s1, s2, s3, s4, s5, s6, s7, s8, s9].reduceOption)

/-- Run the engine on a store holding exactly the caller's array. -/
def Extended.runAnalyse (episodes : List Episode) (now : ℤ) :
    List Finding × Store :=
  (Extended.analyseSt 0 now).run [episodes]

/-! ## Zero-value completion of optional fields -/

/-- The zero-value completion the specification's error-handling contract
describes: absent intensity becomes the number 0, absent `triggers` and
`medications` become empty collections. -/
def normalizeEpisode (ep : Episode) : Episode :=
  { ep with
    intensity := some (ep.intensity.getD 0)
    triggers := some (ep.triggers.getD [])
    medications := some (ep.medications.getD []) }

/-! ## Substring occurrence -/

/-- Does the list start with `pat`? -/
def listStartsWith {α : Type} [DecidableEq α] : List α → List α → Bool
  | [], _ => true
  | _ :: _, [] => false
  | a :: ps, b :: bs => a == b && listStartsWith ps bs

/-- Does `pat` occur as a contiguous sublist? -/
def listHasSub {α : Type} [DecidableEq α] (pat : List α) : List α → Bool
  | [] => pat.isEmpty
  | b :: bs => listStartsWith pat (b :: bs) || listHasSub pat bs

/-- Does `pat` occur as a substring of `s`? -/
def strHasSub (pat s : String) : Bool := listHasSub pat.data s.data

/-! ## Specification-level definitions

These definitions follow the wording of the design document and of the
claims; the refinement theorems below compare them with the embedded
rules. -/

/-- All normalised trigger labels of a window, one occurrence per
(episode, label) pair. -/
def normLabelsOf (recent : List Episode) : List String :=
  recent.flatMap (fun ep => (ep.triggers.getD []).map normLabel)

/-- The contents of a bump-counter after processing the labels `m`: keys
in first-occurrence order, values the occurrence counts in `m`. -/
def mkCounts (m : List String) : List (String × ℕ) :=
  (firstDedup m).map (fun k => (k, m.count k))

/-- The frequent-triggers rule as the claim words it: count trigger
labels after trim-and-lowercase normalisation, keep every label whose
count reaches `ceil(windowSize · 0.25)`, and list them capitalised,
joined by commas. -/
def topTriggersSpec (episodes : List Episode) (now : ℤ) : Option Finding :=
  let window := inLastDays episodes now 30
  if window.isEmpty then none else
  let labels := normLabelsOf window
  let frequent := (firstDedup labels).filter
    (fun k => (⌈(window.length : ℚ) * (25 / 100)⌉ : ℤ) ≤ (labels.count k : ℤ))
  if frequent.isEmpty then none else
  some ⟨"Frequent triggers",
    "You often report triggers like " ++
      String.intercalate ", " (frequent.map capitalize) ++
      ". Consider what adjustments might help you avoid or mitigate these."⟩

/-- Mean intensity of a list of episodes, absent intensities read as 0
(the claim's treatment of the averages). -/
def specAvgOf (l : List Episode) : Frac :=
  ⟨l.foldl (fun s ep => s + ep.intensity.getD 0) 0, (l.length : ℤ)⟩

/-- The amended rising-intensity contract of the basic variant, written
from the claim's words: 42-day window with at least 2 episodes, midpoint
split at 21 days with both halves non-empty, fire exactly when the newer
average is at least 1.2 times the older one (no positivity requirement),
and report both averages to one decimal place. -/
def risingIntensitySpec (episodes : List Episode) (now : ℤ) : Option Finding :=
  if (Basic.risingRecent episodes now).length < 2 then none else
  if (Basic.risingFirstWindow episodes now).isEmpty ||
      (Basic.risingSecondWindow episodes now).isEmpty then none else
  if Frac.leB ((specAvgOf (Basic.risingFirstWindow episodes now)).mul ⟨12, 10⟩)
      (specAvgOf (Basic.risingSecondWindow episodes now)) then
    some ⟨"Rising intensity",
      Basic.risingMessage
        (specAvgOf (Basic.risingSecondWindow episodes now)).toFixed1
        (specAvgOf (Basic.risingFirstWindow episodes now)).toFixed1⟩
  else none

/-- The number of distinct calendar days of the last-30-day window on
which at least one medication entry is present, as the claim words it. -/
def medDistinctDayCount (episodes : List Episode) (now : ℤ) : ℕ :=
  (((inLastDays episodes now 30).filter
    (fun ep => !(ep.medications.getD []).isEmpty)).map
      (fun ep => dayNumber ep.datetime)).toFinset.card

/-- The distinct calendar days logged anywhere in the history, sorted
descending — the claim-level input of the streak walk. -/
def distinctDaysDesc (episodes : List Episode) : List ℤ :=
  List.insertionSort (fun a b => b ≤ a)
    ((episodes.map (fun ep => dayNumber ep.datetime)).dedup)

/-! ## Concrete instances used by witnesses and counterexamples -/

/-- An episode one day in the future of the reference instant 0. -/
def futureEp : Episode := mkEp 1440 none none none

/-- Two episodes in the 42-day window before minute 60480 (day 42),
one in each half, both with intensity 0. -/
def zeroIntensityEps : List Episode :=
  [mkEp 14400 (some 0) none none, mkEp 59000 (some 0) none none]

/-- Two episodes in the 42-day window before minute 60480 (day 42),
one in each half, both with the intensity field absent. -/
def absentIntensityEps : List Episode :=
  [mkEp 14400 none none none, mkEp 59000 none none none]

/-- Two episodes whose trigger labels differ only by case and spacing. -/
def coffeeEps : List Episode :=
  [mkEp 100 none (some ["Coffee"]) none,
   mkEp 200 none (some [" coffee "]) none]

/-- One episode at 23:00. -/
def lateEveningEps : List Episode := [mkEp (23 * 60) none none none]

/-- Two episodes in the 42-day window before minute 60480, with
intensities 2 (older half) and 5 (newer half). -/
def risingPairEps : List Episode :=
  [mkEp 14400 (some 2) none none, mkEp 59000 (some 5) none none]

/-- Ten episodes on ten distinct days, each with one medication entry. -/
def tenMedEps : List Episode :=
  (List.range 10).map (fun i =>
    mkEp ((i : ℤ) * 1440 + 600) (some 5) none (some [⟨"Ibuprofen", some 400⟩]))

/-- Five episodes in the last week and three in the week before,
relative to minute 20160 (day 14). -/
def increasedWeekEps : List Episode :=
  [mkEp 13000 none none none, mkEp 13100 none none none,
   mkEp 13200 none none none, mkEp 14000 none none none,
   mkEp 15000 none none none,
   mkEp 1000 none none none, mkEp 2000 none none none,
   mkEp 3000 none none none]

/-- One episode exactly 7 days before the reference instant 10080. -/
def boundaryEp : Episode := mkEp 0 none none none

/-- A three-day streak on days 10, 11, 12 (long before any later "now"),
logged in one order... -/
def streakEpsA : List Episode :=
  [mkEp (10 * 1440) none none none, mkEp (11 * 1440 + 30) none none none,
   mkEp (12 * 1440 + 700) none none none]

/-- ...and the same distinct days logged in another order at other times
of day. -/
def streakEpsB : List Episode :=
  [mkEp (12 * 1440 + 5) none none none, mkEp (10 * 1440 + 60) none none none,
   mkEp (11 * 1440 + 100) none none none, mkEp (12 * 1440 + 6) none none none]

instance : IsTotal ℤ (fun a b => b ≤ a) := ⟨fun a b => le_total b a⟩

instance : IsTrans ℤ (fun a b => b ≤ a) := ⟨fun _ _ _ h1 h2 => le_trans h2 h1⟩

instance : IsAntisymm ℤ (fun a b => b ≤ a) := ⟨fun _ _ h1 h2 => le_antisymm h2 h1⟩

theorem listStartsWith_append {α : Type} [DecidableEq α] (pat rest : List α) :
    listStartsWith pat (pat ++ rest) = true := by
  induction pat with
  | nil => simp [listStartsWith]
  | cons a ps ih => simp [listStartsWith, ih]

theorem listHasSub_here {α : Type} [DecidableEq α] (pat rest : List α) :
    listHasSub pat (pat ++ rest) = true := by
  cases pat with
  | nil =>
    cases rest with
    | nil => simp [listHasSub, List.isEmpty]
    | cons b bs => simp [listHasSub, listStartsWith]
  | cons a ps =>
    have h := listStartsWith_append (a :: ps) rest
    simp only [List.cons_append] at h
    simp [listHasSub, h]

theorem listHasSub_append_left {α : Type} [DecidableEq α] (pat pre l : List α)
    (h : listHasSub pat l = true) : listHasSub pat (pre ++ l) = true := by
  induction pre with
  | nil => simpa using h
  | cons b bs ih => simp [listHasSub, ih]

theorem strHasSub_data (pat s : String)
    (h : listHasSub pat.data s.data = true) : strHasSub pat s = true := h

/-! ## Bridges between the exact fraction arithmetic and `ℚ` -/

theorem ediv_eq_ratFloor (m d : ℤ) (hd : 0 ≤ d) :
    m.ediv d = ⌊(m : ℚ) / (d : ℚ)⌋ := by
  lift d to ℕ using hd
  rw [show (((d : ℕ) : ℤ) : ℚ) = ((d : ℕ) : ℚ) by push_cast; ring]
  rw [Rat.floor_intCast_div_natCast]
  rfl

theorem Frac.ceil_eq (m d : ℤ) (hd : 0 < d) :
    Frac.ceil ⟨m, d⟩ = ⌈(m : ℚ) / (d : ℚ)⌉ := by
  show -((-m).ediv d) = ⌈(m : ℚ) / (d : ℚ)⌉
  rw [ediv_eq_ratFloor (-m) d hd.le]
  rw [show ((-m : ℤ) : ℚ) / (d : ℚ) = -((m : ℚ) / (d : ℚ)) by push_cast; ring]
  rw [Int.floor_neg]
  ring

theorem Frac.round_eq (m d : ℤ) (hd : 0 < d) :
    Frac.round ⟨m, d⟩ = ⌊(m : ℚ) / (d : ℚ) + 1 / 2⌋ := by
  show (2 * m + d).ediv (2 * d) = ⌊(m : ℚ) / (d : ℚ) + 1 / 2⌋
  rw [ediv_eq_ratFloor (2 * m + d) (2 * d) (by omega)]
  congr 1
  have hd0 : ((d : ℚ)) ≠ 0 := by exact_mod_cast hd.ne'
  push_cast
  field_simp
  ring

theorem Frac.leB_iff (a b : Frac) (ha : 0 < a.den) (hb : 0 < b.den) :
    a.leB b = true ↔ a.toRat ≤ b.toRat := by
  unfold Frac.leB Frac.toRat
  rw [decide_eq_true_iff]
  rw [div_le_div_iff₀ (by exact_mod_cast ha) (by exact_mod_cast hb)]
  constructor <;> intro h <;> exact_mod_cast h

theorem Frac.ltB_iff (a b : Frac) (ha : 0 < a.den) (hb : 0 < b.den) :
    a.ltB b = true ↔ a.toRat < b.toRat := by
  unfold Frac.ltB Frac.toRat
  rw [decide_eq_true_iff]
  rw [div_lt_div_iff₀ (by exact_mod_cast ha) (by exact_mod_cast hb)]
  constructor <;> intro h <;> exact_mod_cast h

/-! ## Properties of `firstDedup` -/

theorem firstDedup_step_mem {α : Type} [DecidableEq α] (acc : List α) (b a : α) :
    (a ∈ if b ∈ acc then acc else acc ++ [b]) ↔ a ∈ acc ∨ a = b := by
  by_cases hb : b ∈ acc
  · simp only [if_pos hb]
    constructor
    · exact Or.inl
    · rintro (h | rfl)
      · exact h
      · exact hb
  · simp [if_neg hb]

theorem foldl_firstDedup_mem {α : Type} [DecidableEq α] (l : List α) :
    ∀ (acc : List α) (a : α),
      (a ∈ l.foldl (fun acc x => if x ∈ acc then acc else acc ++ [x]) acc) ↔
        a ∈ acc ∨ a ∈ l := by
  induction l with
  | nil => simp
  | cons b tl ih =>
    intro acc a
    rw [List.foldl_cons, ih]
    rw [firstDedup_step_mem]
    simp only [List.mem_cons]
    tauto

theorem mem_firstDedup {α : Type} [DecidableEq α] (l : List α) (a : α) :
    a ∈ firstDedup l ↔ a ∈ l := by
  unfold firstDedup
  rw [foldl_firstDedup_mem]
  simp

theorem foldl_firstDedup_nodup {α : Type} [DecidableEq α] (l : List α) :
    ∀ acc : List α, acc.Nodup →
      (l.foldl (fun acc x => if x ∈ acc then acc else acc ++ [x]) acc).Nodup := by
  induction l with
  | nil => intro acc h; simpa
  | cons b tl ih =>
    intro acc hacc
    rw [List.foldl_cons]
    apply ih
    by_cases hb : b ∈ acc
    · simpa [if_pos hb]
    · rw [if_neg hb]
      simp [List.nodup_append, hacc, List.Disjoint]
      intro x hx hxb
      exact hb (hxb ▸ hx)

theorem firstDedup_nodup {α : Type} [DecidableEq α] (l : List α) :
    (firstDedup l).Nodup :=
  foldl_firstDedup_nodup l [] List.nodup_nil

theorem firstDedup_append_singleton {α : Type} [DecidableEq α] (m : List α)
    (t : α) :
    firstDedup (m ++ [t]) =
      if t ∈ firstDedup m then firstDedup m else firstDedup m ++ [t] := by
  unfold firstDedup
  rw [List.foldl_append]
  rfl

/-! ## Characterisation of the bump-counter -/

theorem bumpCount_mkCounts (m : List String) (t : String) :
    bumpCount (mkCounts m) t = mkCounts (m ++ [t]) := by
  by_cases h : t ∈ m
  · have hfd : t ∈ firstDedup m := (mem_firstDedup m t).mpr h
    have hany : (mkCounts m).any (fun p => p.1 == t) = true := by
      rw [List.any_eq_true]
      exact ⟨(t, m.count t), List.mem_map_of_mem _ hfd, by simp⟩
    unfold bumpCount
    rw [if_pos hany]
    unfold mkCounts
    rw [firstDedup_append_singleton, if_pos hfd, List.map_map]
    refine List.map_congr_left ?_
    intro k _
    simp only [Function.comp_apply]
    by_cases hkt : k = t
    · subst hkt
      simp [List.count_append, List.count_singleton]
    · have hbeq : (k == t) = false := by simpa using hkt
      have hbeq2 : (t == k) = false := by
        simp only [beq_eq_false_iff_ne, ne_eq]
        exact fun hc => hkt hc.symm
      simp [hbeq, List.count_append, List.count_singleton, hbeq2]
  · have hfd : t ∉ firstDedup m := fun hc => h ((mem_firstDedup m t).mp hc)
    have hany : ¬((mkCounts m).any (fun p => p.1 == t) = true) := by
      rw [List.any_eq_true]
      rintro ⟨p, hmem, hbeq⟩
      obtain ⟨k', hk', rfl⟩ := List.mem_map.mp hmem
      have hkt : k' = t := by simpa using hbeq
      exact hfd (hkt ▸ hk')
    unfold bumpCount
    rw [if_neg hany]
    unfold mkCounts
    rw [firstDedup_append_singleton, if_neg hfd, List.map_append]
    congr 1
    · refine List.map_congr_left ?_
      intro k hk
      have hk' : k ∈ m := (mem_firstDedup m k).mp hk
      have hbeq : (t == k) = false := by
        simp only [beq_eq_false_iff_ne, ne_eq]
        exact fun hc => h (hc ▸ hk')
      simp [List.count_append, List.count_singleton, hbeq]
    · simp [List.count_append, List.count_singleton,
        List.count_eq_zero_of_not_mem h]

theorem foldl_bumpCount_from (ts : List String) :
    ∀ m : List String, ts.foldl bumpCount (mkCounts m) = mkCounts (m ++ ts) := by
  induction ts with
  | nil => intro m; simp
  | cons t tl ih =>
    intro m
    rw [List.foldl_cons, bumpCount_mkCounts, ih]
    simp

theorem foldl_bumpCount_eq_mkCounts (l : List String) :
    l.foldl bumpCount [] = mkCounts l := by
  simpa using foldl_bumpCount_from l []

theorem foldl_inner_flatMap {α β σ : Type} (f : α → List β) (g : σ → β → σ) :
    ∀ (l : List α) (s : σ),
      l.foldl (fun acc x => (f x).foldl g acc) s = (l.flatMap f).foldl g s := by
  intro l
  induction l with
  | nil => intro s; simp
  | cons x tl ih =>
    intro s
    simp only [List.foldl_cons, List.flatMap_cons, List.foldl_append]
    exact ih _

theorem Basic.triggerCounts_eq (recent : List Episode) :
    Basic.triggerCounts recent = mkCounts (normLabelsOf recent) := by
  unfold Basic.triggerCounts normLabelsOf
  have hfun : (fun (acc : List (String × ℕ)) (ep : Episode) =>
      (ep.triggers.getD []).foldl (fun acc2 t => bumpCount acc2 (normLabel t)) acc) =
      (fun acc ep => ((ep.triggers.getD []).map normLabel).foldl bumpCount acc) := by
    funext acc ep
    rw [List.foldl_map]
  rw [hfun]
  exact (foldl_inner_flatMap (fun ep => (ep.triggers.getD []).map normLabel)
    bumpCount recent []).trans (foldl_bumpCount_eq_mkCounts _)

/-! ## Sums over present intensities -/

theorem foldl_jsAdd_some (l : List (Option ℤ)) :
    ∀ a : ℤ, (∀ x ∈ l, x.isSome) →
      l.foldl jsAdd (some a) = some (l.foldl (fun s x => s + x.getD 0) a) := by
  induction l with
  | nil => intro a _; rfl
  | cons x tl ih =>
    intro a h
    obtain ⟨v, rfl⟩ := Option.isSome_iff_exists.mp (h x (List.mem_cons_self x tl))
    simp only [List.foldl_cons, jsAdd, Option.getD_some]
    exact ih (a + v) (fun y hy => h y (List.mem_cons_of_mem _ hy))

theorem jsSum_all_some (l : List (Option ℤ)) (h : ∀ x ∈ l, x.isSome) :
    jsSum l = some (l.foldl (fun s x => s + x.getD 0) 0) :=
  foldl_jsAdd_some l 0 h

/-! ## `filterMap`, `firstDedup` length, sorted uniqueness -/

theorem filterMap_ite_none {α β : Type} (p : α → Bool) (g : α → β) :
    ∀ l : List α,
      l.filterMap (fun x => if p x then none else some (g x)) =
        (l.filter (fun x => !(p x))).map g := by
  intro l
  induction l with
  | nil => rfl
  | cons x tl ih =>
    by_cases h : p x <;>
      simp [List.filterMap_cons, List.filter_cons, h, ih]

theorem firstDedup_length_eq_card {α : Type} [DecidableEq α] (l : List α) :
    (firstDedup l).length = l.toFinset.card := by
  have h1 : (firstDedup l).toFinset = l.toFinset := by
    ext a
    simp [List.mem_toFinset, mem_firstDedup]
  rw [← h1, List.toFinset_card_of_nodup (firstDedup_nodup l)]

theorem sortedDesc_unique (l₁ l₂ : List ℤ) (h₁ : l₁.Nodup) (h₂ : l₂.Nodup)
    (hmem : ∀ a, a ∈ l₁ ↔ a ∈ l₂)
    (hs₁ : List.Sorted (fun a b => b ≤ a) l₁)
    (hs₂ : List.Sorted (fun a b => b ≤ a) l₂) : l₁ = l₂ := by
  have hperm : l₁.Perm l₂ := by
    apply List.perm_of_nodup_nodup_toFinset_eq h₁ h₂
    ext a
    simp [List.mem_toFinset, hmem a]
  exact List.eq_of_perm_of_sorted hperm hs₁ hs₂

theorem insertionSortDesc_congr (m₁ m₂ : List ℤ) (h₁ : m₁.Nodup)
    (h₂ : m₂.Nodup) (hmem : ∀ a, a ∈ m₁ ↔ a ∈ m₂) :
    List.insertionSort (fun a b => b ≤ a) m₁ =
      List.insertionSort (fun a b => b ≤ a) m₂ := by
  apply sortedDesc_unique
  · exact ((List.perm_insertionSort _ m₁).nodup_iff).mpr h₁
  · exact ((List.perm_insertionSort _ m₂).nodup_iff).mpr h₂
  · intro a
    rw [(List.perm_insertionSort _ m₁).mem_iff,
      (List.perm_insertionSort _ m₂).mem_iff]
    exact hmem a
  · exact List.sorted_insertionSort _ m₁
  · exact List.sorted_insertionSort _ m₂

/-! ## Substring templates for the message shapes of the engine -/

theorem strHasSub_template1 (a x b : String) :
    strHasSub x (a ++ x ++ b) = true := by
  unfold strHasSub
  simp only [String.data_append, List.append_assoc]
  exact listHasSub_append_left _ _ _ (listHasSub_here _ _)

theorem strHasSub_template2_fst (a x b y c : String) :
    strHasSub x (a ++ x ++ b ++ y ++ c) = true := by
  unfold strHasSub
  simp only [String.data_append, List.append_assoc]
  exact listHasSub_append_left _ _ _ (listHasSub_here _ _)

theorem strHasSub_template2_snd (a x b y c : String) :
    strHasSub y (a ++ x ++ b ++ y ++ c) = true := by
  unfold strHasSub
  simp only [String.data_append, List.append_assoc]
  exact listHasSub_append_left _ _ _ (listHasSub_append_left _ _ _
    (listHasSub_append_left _ _ _ (listHasSub_here _ _)))

theorem strHasSub_template3_fst (a x b y c z d : String) :
    strHasSub x (a ++ x ++ b ++ y ++ c ++ z ++ d) = true := by
  unfold strHasSub
  simp only [String.data_append, List.append_assoc]
  exact listHasSub_append_left _ _ _ (listHasSub_here _ _)

theorem strHasSub_template3_snd (a x b y c z d : String) :
    strHasSub y (a ++ x ++ b ++ y ++ c ++ z ++ d) = true := by
  unfold strHasSub
  simp only [String.data_append, List.append_assoc]
  exact listHasSub_append_left _ _ _ (listHasSub_append_left _ _ _
    (listHasSub_append_left _ _ _ (listHasSub_here _ _)))

theorem strHasSub_template3_thd (a x b y c z d : String) :
    strHasSub z (a ++ x ++ b ++ y ++ c ++ z ++ d) = true := by
  unfold strHasSub
  simp only [String.data_append, List.append_assoc]
  exact listHasSub_append_left _ _ _ (listHasSub_append_left _ _ _
    (listHasSub_append_left _ _ _ (listHasSub_append_left _ _ _
      (listHasSub_append_left _ _ _ (listHasSub_here _ _)))))

/-! ## Claim C1 -/

/-- Claim C1, amended: `inLastDays(days)` returns exactly the episodes
whose `datetime` is at least `now - days` — the lower bound is inclusive,
but there is no upper bound, so episodes with `datetime` after `now`
(which the data model allows) are also returned. -/
theorem claim1_window_membership (episodes : List Episode) (now days : ℤ)
    (ep : Episode) :
    ep ∈ inLastDays episodes now days ↔
      ep ∈ episodes ∧ now - days * 1440 ≤ ep.datetime := by
  unfold inLastDays
  rw [List.mem_filter]
  simp

/-- Claim C1 counterexample: an episode whose `datetime` lies strictly
after the reference instant 0 is nevertheless returned by
`inLastDays(30)`, so the helper does not restrict to `[now - days, now]`. -/
theorem claim1_counterexample :
    futureEp ∈ inLastDays [futureEp] 0 30 ∧ 0 < futureEp.datetime := by
  constructor
  · decide
  · decide

/-! ## Claim C9 -/

/-- Claim C9: the two windows of the weekly-frequency-change rule are
disjoint, and an episode exactly 7 days old is counted only in the
last-week window. -/
theorem claim9_windows_disjoint (episodes : List Episode) (now : ℤ)
    (ep : Episode) :
    (ep ∈ Extended.lastWeekOf episodes now →
      ep ∉ Extended.prevWeekOf episodes now) ∧
    (ep ∈ episodes → ep.datetime = now - 7 * 1440 →
      ep ∈ Extended.lastWeekOf episodes now ∧
        ep ∉ Extended.prevWeekOf episodes now) := by
  constructor
  · intro hlast hprev
    unfold Extended.lastWeekOf inLastDays at hlast
    unfold Extended.prevWeekOf at hprev
    rw [List.mem_filter] at hlast hprev
    have h1 := hlast.2
    have h2 := hprev.2
    simp only [decide_eq_true_eq] at h1 h2
    omega
  · intro hmem hdt
    constructor
    · unfold Extended.lastWeekOf inLastDays
      rw [List.mem_filter]
      exact ⟨hmem, by simp only [decide_eq_true_eq]; omega⟩
    · intro hprev
      unfold Extended.prevWeekOf at hprev
      rw [List.mem_filter] at hprev
      have h2 := hprev.2
      simp only [decide_eq_true_eq] at h2
      omega

/-- Claim C9 witness: a concrete episode exactly 7 days before the
reference instant is in the last-week window and not in the prior one. -/
theorem claim9_witness :
    boundaryEp ∈ Extended.lastWeekOf [boundaryEp] 10080 ∧
      boundaryEp ∉ Extended.prevWeekOf [boundaryEp] 10080 :=
  (claim9_windows_disjoint [boundaryEp] 10080 boundaryEp).2
    (by decide) (by decide)

/-! ## Claim C8 -/

/-- Claim C8: the weekly-frequency-change rule emits nothing when the
prior window is empty or when the two counts are equal; with a non-empty
prior window it emits exactly the increased-frequency finding when the
last-week count is strictly greater and exactly the decreased-frequency
finding when strictly smaller, both counts appearing in the message. -/
theorem claim8_weekly_change (episodes : List Episode) (now : ℤ) :
    ((Extended.prevWeekOf episodes now).length = 0 →
      Extended.weeklyChangeRule episodes now = none) ∧
    ((Extended.lastWeekOf episodes now).length =
        (Extended.prevWeekOf episodes now).length →
      Extended.weeklyChangeRule episodes now = none) ∧
    (0 < (Extended.prevWeekOf episodes now).length →
      (Extended.prevWeekOf episodes now).length <
        (Extended.lastWeekOf episodes now).length →
      ∃ f, Extended.weeklyChangeRule episodes now = some f ∧
        f.title = "Increased frequency" ∧
        strHasSub (toString (Extended.lastWeekOf episodes now).length)
          f.message = true ∧
        strHasSub (toString (Extended.prevWeekOf episodes now).length)
          f.message = true) ∧
    (0 < (Extended.prevWeekOf episodes now).length →
      (Extended.lastWeekOf episodes now).length <
        (Extended.prevWeekOf episodes now).length →
      ∃ f, Extended.weeklyChangeRule episodes now = some f ∧
        f.title = "Decreased frequency" ∧
        strHasSub (toString (Extended.lastWeekOf episodes now).length)
          f.message = true ∧
        strHasSub (toString (Extended.prevWeekOf episodes now).length)
          f.message = true) := by
  refine ⟨?_, ?_, ?_, ?_⟩
  · intro h
    unfold Extended.weeklyChangeRule
    rw [if_neg (by omega), if_neg (by omega)]
  · intro h
    unfold Extended.weeklyChangeRule
    rw [if_neg (by omega), if_neg (by omega)]
  · intro h1 h2
    refine ⟨⟨"Increased frequency",
      "You logged " ++ toString (Extended.lastWeekOf episodes now).length ++
      " episodes in the last week, up from " ++
      toString (Extended.prevWeekOf episodes now).length ++
      " the week before. Watch for triggers and consider adjustments."⟩,
      ?_, rfl, ?_, ?_⟩
    · unfold Extended.weeklyChangeRule
      rw [if_pos ⟨h1, h2⟩]
    · exact strHasSub_template2_fst "You logged "
        (toString (Extended.lastWeekOf episodes now).length)
        " episodes in the last week, up from "
        (toString (Extended.prevWeekOf episodes now).length)
        " the week before. Watch for triggers and consider adjustments."
    · exact strHasSub_template2_snd "You logged "
        (toString (Extended.lastWeekOf episodes now).length)
        " episodes in the last week, up from "
        (toString (Extended.prevWeekOf episodes now).length)
        " the week before. Watch for triggers and consider adjustments."
  · intro h1 h2
    refine ⟨⟨"Decreased frequency",
      "Nice progress! You've logged fewer episodes this week (" ++
      toString (Extended.lastWeekOf episodes now).length ++
      ") than the previous week (" ++
      toString (Extended.prevWeekOf episodes now).length ++
      "). Keep it up!"⟩, ?_, rfl, ?_, ?_⟩
    · unfold Extended.weeklyChangeRule
      rw [if_neg (by omega), if_pos ⟨h1, h2⟩]
    · exact strHasSub_template2_fst "Nice progress! You've logged fewer episodes this week ("
        (toString (Extended.lastWeekOf episodes now).length)
        ") than the previous week ("
        (toString (Extended.prevWeekOf episodes now).length)
        "). Keep it up!"
    · exact strHasSub_template2_snd "Nice progress! You've logged fewer episodes this week ("
        (toString (Extended.lastWeekOf episodes now).length)
        ") than the previous week ("
        (toString (Extended.prevWeekOf episodes now).length)
        "). Keep it up!"

/-- Claim C8 witness: five episodes in the last week against three in the
prior week yield the increased-frequency finding with both counts in its
message. -/
theorem claim8_witness :
    ∃ f, Extended.weeklyChangeRule increasedWeekEps 20160 = some f ∧
      f.title = "Increased frequency" ∧
      strHasSub (toString (Extended.lastWeekOf increasedWeekEps 20160).length)
        f.message = true ∧
      strHasSub (toString (Extended.prevWeekOf increasedWeekEps 20160).length)
        f.message = true :=
  (claim8_weekly_change increasedWeekEps 20160).2.2.1 (by decide) (by decide)

/-! ## Claim C5 -/

theorem medDayList_length (recent : List Episode) :
    (Basic.medDayList recent).length =
      ((recent.filter (fun ep => !(ep.medications.getD []).isEmpty)).map
        (fun ep => dayNumber ep.datetime)).toFinset.card := by
  unfold Basic.medDayList
  rw [show recent.filterMap (fun ep =>
      if (ep.medications.getD []).isEmpty then none
      else some (dayNumber ep.datetime)) =
      (recent.filter (fun ep => !(ep.medications.getD []).isEmpty)).map
        (fun ep => dayNumber ep.datetime) from filterMap_ite_none _ _ recent]
  exact firstDedup_length_eq_card _

theorem extended_medDayList_eq : Extended.medDayList = Basic.medDayList := rfl

/-- Claim C5: both variants' medication-overuse rules fire exactly when
the number of distinct calendar days of the last-30-day window carrying a
medication entry reaches 10 (in particular 9 days do not fire), and the
emitted message states that day count. -/
theorem claim5_medication_overuse (episodes : List Episode) (now : ℤ) :
    ((Basic.medicationOveruseRule episodes now).isSome ↔
      10 ≤ medDistinctDayCount episodes now) ∧
    ((Extended.medicationOveruseRule episodes now).isSome ↔
      10 ≤ medDistinctDayCount episodes now) ∧
    (∀ f, Basic.medicationOveruseRule episodes now = some f →
      strHasSub (toString (medDistinctDayCount episodes now)) f.message =
        true) ∧
    (∀ f, Extended.medicationOveruseRule episodes now = some f →
      strHasSub (toString (medDistinctDayCount episodes now)) f.message =
        true) := by
  have hlen : (Basic.medDayList (inLastDays episodes now 30)).length =
      medDistinctDayCount episodes now := by
    rw [medDayList_length]
    rfl
  unfold Basic.medicationOveruseRule Extended.medicationOveruseRule
  simp only [extended_medDayList_eq]
  rw [hlen]
  by_cases h : 10 ≤ medDistinctDayCount episodes now
  · rw [if_pos h, if_pos h]
    refine ⟨by simp [h], by simp [h], ?_, ?_⟩
    · rintro f hf
      cases hf
      exact strHasSub_template1 "You've taken migraine medication on "
        (toString (medDistinctDayCount episodes now))
        " days in the last month. Overuse can sometimes worsen migraines – consider discussing your medication plan with a doctor."
    · rintro f hf
      cases hf
      exact strHasSub_template1 "You've used medication on "
        (toString (medDistinctDayCount episodes now))
        " days in the last month. Over‑use can sometimes worsen migraines; speak with your doctor."
  · rw [if_neg h, if_neg h]
    refine ⟨by simp [h], by simp [h], ?_, ?_⟩
    · rintro f hf
      cases hf
    · rintro f hf
      cases hf

/-- Claim C5 witness: ten medication days in the window make the basic
rule fire with the day count in the message. -/
theorem claim5_witness :
    strHasSub (toString (medDistinctDayCount tenMedEps (15 * 1440)))
      (Finding.message ⟨"Medication use",
        "You've taken migraine medication on 10 days in the last month. Overuse can sometimes worsen migraines – consider discussing your medication plan with a doctor."⟩) =
      true :=
  (claim5_medication_overuse tenMedEps (15 * 1440)).2.2.1
    ⟨"Medication use",
      "You've taken migraine medication on 10 days in the last month. Overuse can sometimes worsen migraines – consider discussing your medication plan with a doctor."⟩
    (by decide)

/-! ## Claim C3 -/

/-- Claim C3, amended: the basic variant's frequent-triggers rule
satisfies the claim's contract exactly — labels counted after
trim-and-lowercase normalisation, threshold `ceil(windowSize · 0.25)`,
one finding listing every qualifying label capitalised and comma-joined.
The extended variant counts raw labels instead (see the
counterexample). -/
theorem claim3_frequent_triggers_amended (episodes : List Episode)
    (now : ℤ) :
    Basic.topTriggersRule episodes now = topTriggersSpec episodes now := by
  unfold Basic.topTriggersRule topTriggersSpec
  simp only [Basic.triggerCounts_eq]
  have hthr : Frac.ceil ⟨((inLastDays episodes now 30).length : ℤ) * 25, 100⟩ =
      (⌈((inLastDays episodes now 30).length : ℚ) * (25 / 100)⌉ : ℤ) := by
    rw [Frac.ceil_eq _ _ (by norm_num)]
    congr 1
    push_cast
    ring
  rw [hthr]
  have hlist : ((mkCounts (normLabelsOf (inLastDays episodes now 30))).filter
      (fun p => (⌈((inLastDays episodes now 30).length : ℚ) * (25 / 100)⌉ : ℤ) ≤
        (p.2 : ℤ))).map (fun p => p.1) =
      (firstDedup (normLabelsOf (inLastDays episodes now 30))).filter
        (fun k => (⌈((inLastDays episodes now 30).length : ℚ) * (25 / 100)⌉ : ℤ) ≤
          ((normLabelsOf (inLastDays episodes now 30)).count k : ℤ)) := by
    unfold mkCounts
    rw [List.filter_map, List.map_map]
    simp [Function.comp_def]
  rw [hlist]

/-- Claim C3 counterexample: the extended variant's rule does not
normalise labels — `"Coffee"` and `" coffee "`, identical after
trim-and-lowercase, are listed as two distinct frequent triggers. -/
theorem claim3_counterexample :
    Extended.topTriggersRule coffeeEps 1440 =
      some ⟨"Frequent triggers",
        "You often report triggers like Coffee,  coffee . Gentle adjustments might help you avoid or mitigate these."⟩ ∧
    normLabel "Coffee" = normLabel " coffee " :=
  ⟨by decide, by decide⟩

/-! ## Claim C2 -/

theorem Frac.toRat_mul (a b : Frac) : (a.mul b).toRat = a.toRat * b.toRat := by
  unfold Frac.mul Frac.toRat
  push_cast
  rw [div_mul_div_comm]

theorem Basic.risingAvg1_eq (episodes : List Episode) (now : ℤ)
    (h : ∀ ep ∈ episodes, ep.intensity.isSome) :
    Basic.risingAvg1 episodes now =
      some (specAvgOf (Basic.risingFirstWindow episodes now)) := by
  unfold Basic.risingAvg1 specAvgOf
  rw [jsSum_all_some]
  · rw [List.foldl_map]
    rfl
  · intro x hx
    obtain ⟨ep, hep, rfl⟩ := List.mem_map.mp hx
    exact h ep (List.mem_of_mem_filter (List.mem_of_mem_filter hep))

theorem Basic.risingAvg2_eq (episodes : List Episode) (now : ℤ)
    (h : ∀ ep ∈ episodes, ep.intensity.isSome) :
    Basic.risingAvg2 episodes now =
      some (specAvgOf (Basic.risingSecondWindow episodes now)) := by
  unfold Basic.risingAvg2 specAvgOf
  rw [jsSum_all_some]
  · rw [List.foldl_map]
    rfl
  · intro x hx
    obtain ⟨ep, hep, rfl⟩ := List.mem_map.mp hx
    exact h ep (List.mem_of_mem_filter (List.mem_of_mem_filter hep))

theorem leB_mul12_iff (a b : Frac) (ha : 0 < a.den) (hb : 0 < b.den) :
    Frac.leB (a.mul ⟨12, 10⟩) b = true ↔ a.toRat * (12 / 10) ≤ b.toRat := by
  rw [Frac.leB_iff _ _ (by simpa [Frac.mul] using by positivity) hb]
  rw [Frac.toRat_mul]
  rw [show (⟨12, 10⟩ : Frac).toRat = 12 / 10 by norm_num [Frac.toRat]]

/-- Claim C2, amended: given all intensities present, the basic variant's
rising-intensity rule equals the claimed contract except that no
positivity gate on the older average exists — it fires exactly when the
newer average is at least 1.2 times the older one (both averages zero
included), and the message reports both averages to one decimal place. -/
theorem claim2_rising_intensity_amended (episodes : List Episode) (now : ℤ)
    (hint : ∀ ep ∈ episodes, ep.intensity.isSome) :
    Basic.risingIntensityRule episodes now = risingIntensitySpec episodes now ∧
    ((Basic.risingIntensityRule episodes now).isSome ↔
      2 ≤ (Basic.risingRecent episodes now).length ∧
      Basic.risingFirstWindow episodes now ≠ [] ∧
      Basic.risingSecondWindow episodes now ≠ [] ∧
      (specAvgOf (Basic.risingFirstWindow episodes now)).toRat * (12 / 10) ≤
        (specAvgOf (Basic.risingSecondWindow episodes now)).toRat) ∧
    (∀ f, Basic.risingIntensityRule episodes now = some f →
      strHasSub (specAvgOf (Basic.risingSecondWindow episodes now)).toFixed1
        f.message = true ∧
      strHasSub (specAvgOf (Basic.risingFirstWindow episodes now)).toFixed1
        f.message = true) := by
  have ha1 := Basic.risingAvg1_eq episodes now hint
  have ha2 := Basic.risingAvg2_eq episodes now hint
  have heq : Basic.risingIntensityRule episodes now =
      risingIntensitySpec episodes now := by
    unfold Basic.risingIntensityRule risingIntensitySpec
    simp only [ha1, ha2, Option.map_some', jsGe, jsToFixed1]
  refine ⟨heq, ?_, ?_⟩
  · rw [heq]
    unfold risingIntensitySpec
    split_ifs with h1 h2 h3
    · exact iff_of_false (by simp) (fun hc => absurd hc.1 (by omega))
    · refine iff_of_false (by simp) (fun hc => ?_)
      rw [Bool.or_eq_true] at h2
      rcases h2 with h2 | h2
      · exact hc.2.1 (List.isEmpty_iff.mp h2)
      · exact hc.2.2.1 (List.isEmpty_iff.mp h2)
    · rw [Bool.or_eq_true] at h2
      push_neg at h2
      have hfw : Basic.risingFirstWindow episodes now ≠ [] := by
        intro hc
        exact h2.1 (by simp [hc])
      have hsw : Basic.risingSecondWindow episodes now ≠ [] := by
        intro hc
        exact h2.2 (by simp [hc])
      refine iff_of_true (by simp) ⟨by omega, hfw, hsw, ?_⟩
      have hda : 0 < (specAvgOf (Basic.risingFirstWindow episodes now)).den := by
        unfold specAvgOf
        simp only []
        exact_mod_cast List.length_pos.mpr hfw
      have hdb : 0 < (specAvgOf (Basic.risingSecondWindow episodes now)).den := by
        unfold specAvgOf
        simp only []
        exact_mod_cast List.length_pos.mpr hsw
      exact (leB_mul12_iff _ _ hda hdb).mp h3
    · rw [Bool.or_eq_true] at h2
      push_neg at h2
      have hfw : Basic.risingFirstWindow episodes now ≠ [] := by
        intro hc
        exact h2.1 (by simp [hc])
      have hsw : Basic.risingSecondWindow episodes now ≠ [] := by
        intro hc
        exact h2.2 (by simp [hc])
      refine iff_of_false (by simp) (fun hc => ?_)
      have hda : 0 < (specAvgOf (Basic.risingFirstWindow episodes now)).den := by
        unfold specAvgOf
        simp only []
        exact_mod_cast List.length_pos.mpr hfw
      have hdb : 0 < (specAvgOf (Basic.risingSecondWindow episodes now)).den := by
        unfold specAvgOf
        simp only []
        exact_mod_cast List.length_pos.mpr hsw
      exact h3 ((leB_mul12_iff _ _ hda hdb).mpr hc.2.2.2)
  · intro f hf
    rw [heq] at hf
    unfold risingIntensitySpec at hf
    split_ifs at hf
    cases hf
    unfold Basic.risingMessage
    constructor
    · exact strHasSub_template2_fst
        "Your average migraine intensity over the last three weeks ("
        (specAvgOf (Basic.risingSecondWindow episodes now)).toFixed1
        ") is noticeably higher than the preceding three weeks ("
        (specAvgOf (Basic.risingFirstWindow episodes now)).toFixed1
        "). It may be worth discussing this with a healthcare professional."
    · exact strHasSub_template2_snd
        "Your average migraine intensity over the last three weeks ("
        (specAvgOf (Basic.risingSecondWindow episodes now)).toFixed1
        ") is noticeably higher than the preceding three weeks ("
        (specAvgOf (Basic.risingFirstWindow episodes now)).toFixed1
        "). It may be worth discussing this with a healthcare professional."

/-- Claim C2 witness: halves with mean intensities 2 and 5 fire the rule,
and the message carries the one-decimal renderings of both averages. -/
theorem claim2_witness :
    Basic.risingIntensityRule risingPairEps 60480 =
      risingIntensitySpec risingPairEps 60480 ∧
    strHasSub (specAvgOf (Basic.risingSecondWindow risingPairEps 60480)).toFixed1
      (Finding.message ⟨"Rising intensity", Basic.risingMessage "5.0" "2.0"⟩) =
      true := by
  have h := claim2_rising_intensity_amended risingPairEps 60480 (by decide)
  exact ⟨h.1, (h.2.2 ⟨"Rising intensity", Basic.risingMessage "5.0" "2.0"⟩
    (by decide)).1⟩

/-- Claim C2 counterexample: with both halves averaging zero the basic
rule fires even though the older average is not strictly positive, so the
claimed `prev3 > 0` gate does not exist in this variant. -/
theorem claim2_counterexample :
    (Basic.risingIntensityRule zeroIntensityEps 60480).isSome = true ∧
    (specAvgOf (Basic.risingFirstWindow zeroIntensityEps 60480)).toRat = 0 := by
  constructor
  · decide
  · have h : specAvgOf (Basic.risingFirstWindow zeroIntensityEps 60480) =
        ⟨0, 1⟩ := by decide
    rw [h]
    norm_num [Frac.toRat]

/-! ## Claim C4 -/

/-- Claim C4, amended: the basic variant's time-of-day rule fires exactly
when the two-pointer sweep's maximum 240-minute window count reaches
`ceil(total · 0.4)`; its message shows the window range with the end
reduced modulo 1440 (the displayed end hour is always below 24) and the
percentage of captured episodes rounded to nearest.  The extended
variant's message instead floors the raw end `(start + 240) / 60` with no
modulo — an end past midnight shows an hour of 24 or more — and carries
no percentage (see the counterexample). -/
theorem claim4_time_of_day_amended (episodes : List Episode) (now : ℤ) :
    ((Basic.timeOfDayRule episodes now).isSome ↔
      inLastDays episodes now 30 ≠ [] ∧
      (⌈((sortedMinutesOf episodes now).length : ℚ) * (4 / 10)⌉ : ℤ) ≤
        ((sweep (sortedMinutesOf episodes now)).1 : ℤ)) ∧
    (∀ f, Basic.timeOfDayRule episodes now = some f →
      0 ≤ ((sweep (sortedMinutesOf episodes now)).2 + 240).emod 1440 ∧
      ((((sweep (sortedMinutesOf episodes now)).2 + 240).emod 1440).ediv 60) <
        24 ∧
      Frac.round ⟨((sweep (sortedMinutesOf episodes now)).1 : ℤ) * 100,
          ((sortedMinutesOf episodes now).length : ℤ)⟩ =
        ⌊(((sweep (sortedMinutesOf episodes now)).1 : ℚ) /
            ((sortedMinutesOf episodes now).length : ℚ)) * 100 + 1 / 2⌋ ∧
      strHasSub
        (toString (Frac.round ⟨((sweep (sortedMinutesOf episodes now)).1 : ℤ) * 100,
          ((sortedMinutesOf episodes now).length : ℤ)⟩) ++ "%") f.message =
        true ∧
      strHasSub (formatTime (sweep (sortedMinutesOf episodes now)).2)
        f.message = true ∧
      strHasSub
        (formatTime (((sweep (sortedMinutesOf episodes now)).2 + 240).emod 1440))
        f.message = true) := by
  have hlen : (sortedMinutesOf episodes now).length =
      (inLastDays episodes now 30).length := by
    unfold sortedMinutesOf
    rw [(List.perm_insertionSort _ _).length_eq, List.length_map]
  have hthr : Frac.ceil ⟨((sortedMinutesOf episodes now).length : ℤ) * 4, 10⟩ =
      (⌈((sortedMinutesOf episodes now).length : ℚ) * (4 / 10)⌉ : ℤ) := by
    rw [Frac.ceil_eq _ _ (by norm_num)]
    congr 1
    push_cast
    ring
  constructor
  · unfold Basic.timeOfDayRule
    simp only [hthr]
    by_cases hE : (inLastDays episodes now 30).isEmpty
    · rw [if_pos hE]
      exact iff_of_false (by simp)
        (fun hc => hc.1 (List.isEmpty_iff.mp hE))
    · rw [if_neg hE]
      by_cases hT : (⌈((sortedMinutesOf episodes now).length : ℚ) * (4 / 10)⌉ : ℤ) ≤
          ((sweep (sortedMinutesOf episodes now)).1 : ℤ)
      · rw [if_pos hT]
        exact iff_of_true (by simp)
          ⟨fun hc => hE (by simp [hc]), hT⟩
      · rw [if_neg hT]
        exact iff_of_false (by simp) (fun hc => hT hc.2)
  · intro f hf
    unfold Basic.timeOfDayRule at hf
    simp only [hthr] at hf
    split_ifs at hf with hE hT
    cases hf
    have hpos : 0 < ((sortedMinutesOf episodes now).length : ℤ) := by
      rw [hlen]
      have : inLastDays episodes now 30 ≠ [] :=
        fun hc => hE (by simp [hc])
      exact_mod_cast List.length_pos.mpr this
    refine ⟨?_, ?_, ?_, ?_, ?_, ?_⟩
    · show 0 ≤ ((sweep (sortedMinutesOf episodes now)).2 + 240) % 1440
      omega
    · show (((sweep (sortedMinutesOf episodes now)).2 + 240) % 1440) / 60 < 24
      omega
    · rw [Frac.round_eq _ _ hpos]
      congr 1
      push_cast
      ring
    · exact strHasSub_template3_fst "Around "
        (toString (Frac.round ⟨((sweep (sortedMinutesOf episodes now)).1 : ℤ) * 100,
          ((sortedMinutesOf episodes now).length : ℤ)⟩) ++ "%")
        " of your episodes happen between "
        (formatTime (sweep (sortedMinutesOf episodes now)).2)
        " and "
        (formatTime (((sweep (sortedMinutesOf episodes now)).2 + 240).emod 1440))
        ". You might try adjusting your routine or preparing for triggers during this period."
    · exact strHasSub_template3_snd "Around "
        (toString (Frac.round ⟨((sweep (sortedMinutesOf episodes now)).1 : ℤ) * 100,
          ((sortedMinutesOf episodes now).length : ℤ)⟩) ++ "%")
        " of your episodes happen between "
        (formatTime (sweep (sortedMinutesOf episodes now)).2)
        " and "
        (formatTime (((sweep (sortedMinutesOf episodes now)).2 + 240).emod 1440))
        ". You might try adjusting your routine or preparing for triggers during this period."
    · exact strHasSub_template3_thd "Around "
        (toString (Frac.round ⟨((sweep (sortedMinutesOf episodes now)).1 : ℤ) * 100,
          ((sortedMinutesOf episodes now).length : ℤ)⟩) ++ "%")
        " of your episodes happen between "
        (formatTime (sweep (sortedMinutesOf episodes now)).2)
        " and "
        (formatTime (((sweep (sortedMinutesOf episodes now)).2 + 240).emod 1440))
        ". You might try adjusting your routine or preparing for triggers during this period."

/-- Claim C4 witness: a single 10:00 episode fires the basic rule; the
conclusion is instantiated at the concrete emitted finding. -/
theorem claim4_witness :
    strHasSub (formatTime (sweep (sortedMinutesOf [mkEp 600 none none none] 1440)).2)
      (Finding.message ⟨"Time‑of‑day pattern",
        "Around " ++ ("100" ++ "%") ++ " of your episodes happen between " ++
        "10:00" ++ " and " ++ "14:00" ++
        ". You might try adjusting your routine or preparing for triggers during this period."⟩) =
      true ∧
    ((((sweep (sortedMinutesOf [mkEp 600 none none none] 1440)).2 + 240).emod
      1440).ediv 60) < 24 := by
  have h := (claim4_time_of_day_amended [mkEp 600 none none none] 1440).2
    ⟨"Time‑of‑day pattern",
      "Around " ++ ("100" ++ "%") ++ " of your episodes happen between " ++
      "10:00" ++ " and " ++ "14:00" ++
      ". You might try adjusting your routine or preparing for triggers during this period."⟩
    (by decide)
  exact ⟨h.2.2.2.2.1, h.2.1⟩

/-- Claim C4 counterexample: in the extended variant a 23:00 episode
yields the range `23:00–27:00` — the end hour is not reduced modulo 1440
and exceeds 23 — and the message contains no percent sign. -/
theorem claim4_counterexample :
    Extended.timeOfDayRule lateEveningEps 1440 =
      some ⟨"Time‑of‑day cluster",
        "A significant share of your episodes occur between " ++
        ("23" ++ ":00–" ++ "27" ++ ":00") ++
        ". Consider a pre‑emptive routine or relaxation practice then."⟩ ∧
    strHasSub "27:00"
      ("A significant share of your episodes occur between " ++
        ("23" ++ ":00–" ++ "27" ++ ":00") ++
        ". Consider a pre‑emptive routine or relaxation practice then.") = true ∧
    strHasSub "%"
      ("A significant share of your episodes occur between " ++
        ("23" ++ ":00–" ++ "27" ++ ":00") ++
        ". Consider a pre‑emptive routine or relaxation practice then.") = false := by
  refine ⟨by decide, by decide, by decide⟩

/-! ## Claim C10 -/

theorem computeStreak_sorted_eq (episodes : List Episode) :
    Extended.computeStreak
      (List.insertionSort (fun a b => b.datetime ≤ a.datetime) episodes) =
      Extended.streakWalk (distinctDaysDesc episodes) := by
  by_cases h : episodes = []
  · subst h
    rfl
  · unfold Extended.computeStreak distinctDaysDesc
    have hne : ¬((List.insertionSort (fun a b => b.datetime ≤ a.datetime)
        episodes).isEmpty = true) := by
      intro hc
      have hnil : List.insertionSort (fun a b => b.datetime ≤ a.datetime)
          episodes = [] := List.isEmpty_iff.mp hc
      have hperm := (List.perm_insertionSort
        (fun a b => b.datetime ≤ a.datetime) episodes).symm
      rw [hnil] at hperm
      exact h hperm.eq_nil
    rw [if_neg hne]
    congr 1
    apply insertionSortDesc_congr
    · exact firstDedup_nodup _
    · exact List.nodup_dedup _
    · intro a
      rw [mem_firstDedup, List.mem_dedup]
      constructor
      · intro ha
        obtain ⟨ep, hep, rfl⟩ := List.mem_map.mp ha
        exact List.mem_map_of_mem _
          ((List.perm_insertionSort _ episodes).mem_iff.mp hep)
      · intro ha
        obtain ⟨ep, hep, rfl⟩ := List.mem_map.mp ha
        exact List.mem_map_of_mem _
          ((List.perm_insertionSort _ episodes).mem_iff.mpr hep)

/-- Claim C10: the extended variant's streak rule is a function of the
set of distinct logged calendar days alone — the reference instant does
not even occur in the rule — and whenever the most recent run of
consecutive distinct days has length at least 3 the "Consistent tracking"
finding is emitted, regardless of how long before now that run ended. -/
theorem claim10_streak_depends_only_on_days :
    (∀ episodes : List Episode,
      Extended.streakRule episodes =
        Extended.streakFindingOf
          (Extended.streakWalk (distinctDaysDesc episodes))) ∧
    (∀ episodes eps2 : List Episode,
      (episodes.map (fun ep => dayNumber ep.datetime)).toFinset =
        (eps2.map (fun ep => dayNumber ep.datetime)).toFinset →
      Extended.streakRule episodes = Extended.streakRule eps2) ∧
    (∀ episodes : List Episode,
      3 ≤ Extended.streakWalk (distinctDaysDesc episodes) →
      Extended.streakRule episodes =
        some ⟨"Consistent tracking",
          "Great job! You've logged episodes for " ++
            toString (Extended.streakWalk (distinctDaysDesc episodes)) ++
            " consecutive days. Keeping track consistently helps identify patterns."⟩) := by
  have hmain : ∀ episodes : List Episode,
      Extended.streakRule episodes =
        Extended.streakFindingOf
          (Extended.streakWalk (distinctDaysDesc episodes)) := by
    intro episodes
    unfold Extended.streakRule
    simp only [computeStreak_sorted_eq]
  have hdd : ∀ episodes eps2 : List Episode,
      (episodes.map (fun ep => dayNumber ep.datetime)).toFinset =
        (eps2.map (fun ep => dayNumber ep.datetime)).toFinset →
      distinctDaysDesc episodes = distinctDaysDesc eps2 := by
    intro episodes eps2 hset
    unfold distinctDaysDesc
    apply insertionSortDesc_congr
    · exact List.nodup_dedup _
    · exact List.nodup_dedup _
    · intro a
      rw [List.mem_dedup, List.mem_dedup, ← List.mem_toFinset, hset,
        List.mem_toFinset]
  refine ⟨hmain, ?_, ?_⟩
  · intro episodes eps2 hset
    rw [hmain, hmain, hdd episodes eps2 hset]
  · intro episodes h3
    rw [hmain]
    unfold Extended.streakFindingOf
    rw [if_pos h3]

/-- Claim C10 witness: two histories logging the same three consecutive
days 10–12 (in different orders and at different times of day) yield the
same finding, and the finding is emitted although those days lie
arbitrarily far in the past of any reference instant. -/
theorem claim10_witness :
    Extended.streakRule streakEpsA = Extended.streakRule streakEpsB ∧
    Extended.streakRule streakEpsA =
      some ⟨"Consistent tracking",
        "Great job! You've logged episodes for " ++
          toString (Extended.streakWalk (distinctDaysDesc streakEpsA)) ++
          " consecutive days. Keeping track consistently helps identify patterns."⟩ :=
  ⟨claim10_streak_depends_only_on_days.2.1 streakEpsA streakEpsB (by decide),
    claim10_streak_depends_only_on_days.2.2 streakEpsA (by decide)⟩

/-! ## Claim C6 -/

theorem isEmpty_map {α β : Type} (f : α → β) (l : List α) :
    (l.map f).isEmpty = l.isEmpty := by
  cases l <;> rfl

theorem inLastDays_map_normalize (episodes : List Episode) (now days : ℤ) :
    inLastDays (episodes.map normalizeEpisode) now days =
      (inLastDays episodes now days).map normalizeEpisode := by
  unfold inLastDays
  rw [List.filter_map]
  rfl

theorem sortedMinutesOf_normalize (episodes : List Episode) (now : ℤ) :
    sortedMinutesOf (episodes.map normalizeEpisode) now =
      sortedMinutesOf episodes now := by
  unfold sortedMinutesOf
  rw [inLastDays_map_normalize, List.map_map]
  rfl

theorem topTriggersRule_normalize (episodes : List Episode) (now : ℤ) :
    Extended.topTriggersRule (episodes.map normalizeEpisode) now =
      Extended.topTriggersRule episodes now := by
  unfold Extended.topTriggersRule Extended.triggerCounts
  rw [inLastDays_map_normalize]
  simp only [List.length_map, isEmpty_map, List.foldl_map]
  rfl

theorem timeOfDayRule_normalize (episodes : List Episode) (now : ℤ) :
    Extended.timeOfDayRule (episodes.map normalizeEpisode) now =
      Extended.timeOfDayRule episodes now := by
  unfold Extended.timeOfDayRule
  rw [inLastDays_map_normalize, sortedMinutesOf_normalize]
  simp only [isEmpty_map]

theorem weekdayEntries_normalize (w : List Episode) :
    Extended.weekdayEntries (w.map normalizeEpisode) =
      Extended.weekdayEntries w := by
  unfold Extended.weekdayEntries
  simp only [List.countP_map]
  rfl

theorem dayOfWeekRule_normalize (episodes : List Episode) (now : ℤ) :
    Extended.dayOfWeekRule (episodes.map normalizeEpisode) now =
      Extended.dayOfWeekRule episodes now := by
  unfold Extended.dayOfWeekRule
  simp only [inLastDays_map_normalize, weekdayEntries_normalize,
    List.length_map, isEmpty_map]

theorem weeklyAvgOf_normalize (w : List Episode) :
    Extended.weeklyAvgOf (w.map normalizeEpisode) =
      Extended.weeklyAvgOf w := by
  unfold Extended.weeklyAvgOf Extended.weekNumbersOf
  rw [List.map_map]
  rw [show ((fun ep => Extended.weekKey ep.datetime) ∘ normalizeEpisode) =
    (fun ep => Extended.weekKey ep.datetime) from rfl]
  apply List.map_congr_left
  intro wn _
  simp only [show (List.filter (fun ep => Extended.weekKey ep.datetime == wn)
      (w.map normalizeEpisode)) =
      (w.filter (fun ep => Extended.weekKey ep.datetime == wn)).map
        normalizeEpisode from by rw [List.filter_map]; rfl,
    List.foldl_map, List.length_map]
  rfl

theorem risingIntensityRule_normalize (episodes : List Episode) (now : ℤ) :
    Extended.risingIntensityRule (episodes.map normalizeEpisode) now =
      Extended.risingIntensityRule episodes now := by
  unfold Extended.risingIntensityRule
  simp only [inLastDays_map_normalize, weeklyAvgOf_normalize,
    List.length_map]

theorem medDayList_normalize (w : List Episode) :
    Extended.medDayList (w.map normalizeEpisode) = Extended.medDayList w := by
  unfold Extended.medDayList
  rw [List.filterMap_map]
  rfl

theorem medicationOveruseRule_normalize (episodes : List Episode) (now : ℤ) :
    Extended.medicationOveruseRule (episodes.map normalizeEpisode) now =
      Extended.medicationOveruseRule episodes now := by
  unfold Extended.medicationOveruseRule
  simp only [inLastDays_map_normalize, medDayList_normalize]

theorem hourEntries_normalize (w : List Episode) :
    Extended.hourEntries (w.map normalizeEpisode) = Extended.hourEntries w := by
  unfold Extended.hourEntries
  congr 1
  funext h
  simp only [show (w.map normalizeEpisode).filter
      (fun ep => getHours ep.datetime == h) =
      (w.filter (fun ep => getHours ep.datetime == h)).map
        normalizeEpisode from by rw [List.filter_map]; rfl,
    isEmpty_map, List.foldl_map, List.length_map]
  rfl

theorem weekdayAvgEntries_normalize (w : List Episode) :
    Extended.weekdayAvgEntries (w.map normalizeEpisode) =
      Extended.weekdayAvgEntries w := by
  unfold Extended.weekdayAvgEntries
  congr 1
  funext d
  simp only [show (w.map normalizeEpisode).filter
      (fun ep => getDay ep.datetime == d) =
      (w.filter (fun ep => getDay ep.datetime == d)).map
        normalizeEpisode from by rw [List.filter_map]; rfl,
    isEmpty_map, List.foldl_map, List.length_map]
  rfl

theorem averageIntensityByHourRule_normalize (episodes : List Episode)
    (now : ℤ) :
    Extended.averageIntensityByHourRule (episodes.map normalizeEpisode) now =
      Extended.averageIntensityByHourRule episodes now := by
  unfold Extended.averageIntensityByHourRule
  simp only [inLastDays_map_normalize, hourEntries_normalize, isEmpty_map]

theorem averageIntensityByWeekdayRule_normalize (episodes : List Episode)
    (now : ℤ) :
    Extended.averageIntensityByWeekdayRule (episodes.map normalizeEpisode)
      now = Extended.averageIntensityByWeekdayRule episodes now := by
  unfold Extended.averageIntensityByWeekdayRule
  simp only [inLastDays_map_normalize, weekdayAvgEntries_normalize,
    isEmpty_map]

theorem streakRule_normalize (episodes : List Episode) :
    Extended.streakRule (episodes.map normalizeEpisode) =
      Extended.streakRule episodes := by
  unfold Extended.streakRule
  simp only [computeStreak_sorted_eq]
  congr 1
  unfold distinctDaysDesc
  rw [List.map_map]
  rfl

theorem weeklyChangeRule_normalize (episodes : List Episode) (now : ℤ) :
    Extended.weeklyChangeRule (episodes.map normalizeEpisode) now =
      Extended.weeklyChangeRule episodes now := by
  unfold Extended.weeklyChangeRule Extended.lastWeekOf Extended.prevWeekOf
  rw [inLastDays_map_normalize]
  rw [show (episodes.map normalizeEpisode).filter (fun ep =>
      now - 14 * 1440 ≤ ep.datetime ∧ ep.datetime < now - 7 * 1440) =
      (episodes.filter (fun ep =>
        now - 14 * 1440 ≤ ep.datetime ∧ ep.datetime < now - 7 * 1440)).map
        normalizeEpisode from by rw [List.filter_map]; rfl]
  simp only [List.length_map]

/-- Claim C6, amended: replacing every absent optional field by its
zero-value (0 intensity, empty collections) leaves the extended variant's
`analysePatterns` output unchanged — those fields are read through
defaults in every rule.  (In the basic variant the rising-intensity rule
sums the raw intensity instead, so an absent intensity propagates as NaN
and the rule stays silent rather than treating the value as 0; see the
counterexample.  Totality of the embedded engine is the model's rendering
of "never throws".) -/
theorem claim6_zero_value_defaults (episodes : List Episode) (now : ℤ) :
    Extended.analysePatterns (episodes.map normalizeEpisode) now =
      Extended.analysePatterns episodes now := by
  unfold Extended.analysePatterns
  rw [isEmpty_map]
  rw [topTriggersRule_normalize, timeOfDayRule_normalize,
    dayOfWeekRule_normalize, risingIntensityRule_normalize,
    medicationOveruseRule_normalize, averageIntensityByHourRule_normalize,
    averageIntensityByWeekdayRule_normalize, streakRule_normalize,
    weeklyChangeRule_normalize]

/-- Claim C6 counterexample: in the basic variant an absent intensity is
not treated as 0 — with both halves' intensities absent the
rising-intensity rule emits nothing, while the zero-value completion of
the same history makes it fire, and the whole `analysePatterns` outputs
differ. -/
theorem claim6_counterexample :
    Basic.risingIntensityRule absentIntensityEps 60480 = none ∧
    (Basic.risingIntensityRule (absentIntensityEps.map normalizeEpisode)
      60480).isSome = true ∧
    Basic.analysePatterns (absentIntensityEps.map normalizeEpisode) 60480 ≠
      Basic.analysePatterns absentIntensityEps 60480 :=
  ⟨by decide, by decide, by decide⟩

/-! ## Claim C7 -/

/-- Claim C7: replaying the engine call with explicit array identity, the
caller's array (reference 0) holds exactly the input episodes, unchanged
and in order, after `analysePatterns` returns — the only in-place sort of
an episode array acts on the fresh array returned by `slice()` — and the
findings computed in that model agree with the pure embedding. -/
theorem claim7_non_mutation (episodes : List Episode) (now : ℤ) :
    (Extended.runAnalyse episodes now).2.getD 0 [] = episodes ∧
    (Extended.runAnalyse episodes now).1 =
      Extended.analysePatterns episodes now := by
  unfold Extended.runAnalyse Extended.analyseSt Extended.streakRuleSt
    Extended.analysePatterns Extended.streakRule readRef sliceRef
    sortRefByDatetimeDesc
  by_cases h : episodes.isEmpty
  · simp [h, StateT.run, bind, StateT.bind, pure, StateT.pure, List.getD]
  · simp [h, StateT.run, bind, StateT.bind, pure, StateT.pure, List.getD]
